import Mathlib

/- Shallow embedding of the transformer-based tabular models (TabTransformer,
   SAINT) from src/pytorch_widedeep/models/transformers/transformer_models.py
   and of the streaming trainer from
   src/pytorch_widedeep/stream/training/trainer.py.

   Conventions used throughout:
   - tensor entries are modelled as exact integers; all verified properties
     concern shapes, ordering, indices and control flow, never float values;
   - the encoder blocks (TransformerEncoder, SaintEncoder) are defined in
     pytorch_widedeep/models/transformers/layers.py which is not among the
     sources; per the specification (section 4.3) each block is a
     shape-preserving map on (batch, tokens, model_width) tensors, so the
     blocks are modelled abstractly where their output matters;
   - dropout layers have no parameters and are the identity in evaluation
     mode, so the value-level forward model omits them. -/

/-- Key the preprocessor uses for the CLS special-token column. -/
def specialTokenKey : String := "special_token"

/-- Value of cont_norm_layer selecting nn.LayerNorm (line 296). -/
def layerNormKind : String := "layernorm"

/-- Value of cont_norm_layer selecting nn.BatchNorm1d (line 298). -/
def batchNormKind : String := "batchnorm"

/-- Message of the ValueError raised in TabTransformer.__init__, lines 177-181. -/
def specialTokenErr : String :=
  "The data was pre-processed using the CLS special token, Please set with_special_token to True"

/-- Message standing for the TypeError Python raises for len(None) when
SAINT.__init__ reaches line 503 with continuous_cols = None. -/
def lenNoneErr : String :=
  "TypeError: object of type NoneType has no len"

/-- Constructor arguments of TabTransformer (transformer_models.py lines
125-150) that influence at least one verified claim. Dropout rates,
activation names, the head count and the feed-forward width are
hyperparameters forwarded verbatim to external modules and play no role in
any claim, so they are omitted. Defaults follow the Python signature. -/
structure Config where
  column_idx : List (String × Nat)
  embed_input : List (String × Nat)
  continuous_cols : Option (List String) := none
  input_dim : Nat := 32
  n_blocks : Nat := 6
  keep_attn_weights : Bool := false
  with_special_token : Bool := false
  embed_continuous : Bool := false
  shared_embed : Bool := false
  cont_norm_layer : String := layerNormKind
  mlp_hidden_dims : Option (List Nat) := none
deriving DecidableEq

/-- TabTransformer._set_mlp_hidden_dims (lines 309-334), verbatim branch
structure. -/
def setMlpHiddenDims (cfg : Config) : List Nat :=
  match cfg.continuous_cols with
  | some cs =>
    if cfg.with_special_token then
      if cfg.embed_continuous then
        [cfg.input_dim, cfg.input_dim * 4, cfg.input_dim * 2]
      else
        let l := cfg.input_dim + cs.length
        [l, l * 4, l * 2]
    else if cfg.embed_continuous then
      let l := (cfg.embed_input.length + cs.length) * cfg.input_dim
      [l, l * 4, l * 2]
    else
      let l := cfg.embed_input.length * cfg.input_dim + cs.length
      [l, l * 4, l * 2]
  | none =>
    let l := cfg.embed_input.length * cfg.input_dim
    [l, l * 4, l * 2]

/-- Lines 203-204: the Python guard is the truthiness test
if not mlp_hidden_dims, which treats both None and an explicitly supplied
empty list as absent and falls back to _set_mlp_hidden_dims. -/
def resolvedMlpHiddenDims (cfg : Config) : List Nat :=
  match cfg.mlp_hidden_dims with
  | none => setMlpHiddenDims cfg
  | some l => if l.isEmpty then setMlpHiddenDims cfg else l

/-- Last dimension of the tensor handed to self.transformer_mlp by
TabTransformer.forward (lines 217-260), computed stage by stage:
categorical tokens are concatenated on the token axis (lines 219-225),
embedded continuous tokens are appended (lines 229-237), the encoder blocks
preserve the (tokens, width) shape (specification section 4.3; layers.py is
external), pooling takes the first token or flattens (lines 250-253), and
un-embedded continuous columns are concatenated after pooling (lines
255-258). -/
def forwardMlpInputWidth (cfg : Config) : Nat :=
  let nTok := cfg.embed_input.length +
    (match cfg.continuous_cols with
     | some cs => if cfg.embed_continuous then cs.length else 0
     | none => 0)
  let pooled := if cfg.with_special_token then cfg.input_dim
                else nTok * cfg.input_dim
  pooled +
    (match cfg.continuous_cols with
     | some cs => if cfg.embed_continuous then 0 else cs.length
     | none => 0)

/-- The MLP input width as described by the words of claim C2 and of
specification section 4.1; written independently of setMlpHiddenDims so the
two can be compared. -/
def specResolvedWidth (cfg : Config) : Nat :=
  match cfg.continuous_cols with
  | none => cfg.embed_input.length * cfg.input_dim
  | some cs =>
    if cfg.with_special_token then
      if cfg.embed_continuous then cfg.input_dim
      else cfg.input_dim + cs.length
    else if cfg.embed_continuous then
      (cfg.embed_input.length + cs.length) * cfg.input_dim
    else
      cfg.embed_input.length * cfg.input_dim + cs.length

/-- Configuration exhibiting the C1 mismatch: data preprocessed with the CLS
special token (so special_token is a categorical column) and no continuous
columns. -/
def cfgC1 : Config :=
  { column_idx := [(specialTokenKey, 0), ("a", 1)]
  , embed_input := [(specialTokenKey, 1), ("a", 3)]
  , continuous_cols := none
  , input_dim := 4
  , with_special_token := true }

/-- Initial weights for the learned parameters, standing in for the random
initialisation performed by torch. catW col row j is entry j of row number
row of the embedding table of categorical column col; contW and contB are
the weight and bias of the one-layer nn.Linear(1, input_dim) continuous
embedders. -/
structure Params where
  catW : String → Nat → Nat → Int
  contW : String → Nat → Int
  contB : String → Nat → Int

/-- All-zero parameters, used to instantiate theorems on concrete models. -/
def pZero : Params :=
  { catW := fun _ _ _ => 0, contW := fun _ _ => 0, contB := fun _ _ => 0 }

/-- Embedding table built by nn.Embedding(val + 1, input_dim, padding_idx=0)
in _set_categ_embeddings (line 283): val + 1 rows of width input_dim, with
row 0 (the padding row) zero-initialised. SharedEmbeddings (line 268) is
also handed val + 1 as its table size; its internal combination with the
shared vector is defined in layers.py, outside the sources, and affects
embedded values only, never shapes or indices, so it is not modelled. -/
def mkCatTable (d : Nat) (w : Nat → Nat → Int) (val : Nat) : List (List Int) :=
  (List.range (val + 1)).map
    (fun i => if i = 0 then List.replicate d 0 else (List.range d).map (w i))

/-- One encoder block. TabTransformer.__init__ fills transformer_blks with
TransformerEncoder blocks (lines 188-199); SAINT.__init__ replaces them with
SaintEncoder blocks carrying the extra n_feats argument (lines 506-519).
Block internals live in layers.py (external); weightSeed stands for the
block's own attention parameters, and a saint block carries one seed per
attention sublayer (self_attn and row_attn). -/
inductive EncoderBlock
  | transformer (weightSeed : Nat)
  | saint (selfSeed rowSeed : Nat) (n_feats : Nat)
deriving DecidableEq

/-- Attribute state of a constructed TabTransformer or SAINT model: the
fields assigned by __init__, _set_categ_embeddings and _set_cont_cols that
some claim observes. cat_embed_layers maps each categorical column to its
embedding table; cont_embed_layers maps each continuous column to the
(weight, bias) of its nn.Linear(1, input_dim) embedder. -/
structure TabModel where
  column_idx : List (String × Nat)
  embed_input : List (String × Nat)
  continuous_cols : Option (List String)
  input_dim : Nat
  n_blocks : Nat
  keep_attn_weights : Bool
  with_special_token : Bool
  embed_continuous : Bool
  shared_embed : Bool
  cat_embed_layers : List (String × List (List Int))
  cont_embed_layers : List (String × (List Int × List Int))
  blocks : List EncoderBlock
  mlp_dims : List Nat
  output_dim : Nat
deriving DecidableEq

/-- Parameter-allocating steps of TabTransformer.__init__, in program
order: one embedding table per categorical column (lines 262-292), the
continuous normalisation layer and the continuous embedders (lines
294-307), the encoder blocks (lines 187-199) and the output MLP (lines
205-212). -/
inductive AllocEvent
  | catEmbed (col : String) (rows width : Nat)
  | contNorm (kind : String) (width : Nat)
  | contEmbed (col : String)
  | encoderBlock (i : Nat)
  | mlp (dims : List Nat)
deriving DecidableEq

/-- The model record produced by a successful TabTransformer.__init__. -/
def mkModel (cfg : Config) (p : Params) : TabModel :=
  { column_idx := cfg.column_idx
  , embed_input := cfg.embed_input
  , continuous_cols := cfg.continuous_cols
  , input_dim := cfg.input_dim
  , n_blocks := cfg.n_blocks
  , keep_attn_weights := cfg.keep_attn_weights
  , with_special_token := cfg.with_special_token
  , embed_continuous := cfg.embed_continuous
  , shared_embed := cfg.shared_embed
  , cat_embed_layers :=
      cfg.embed_input.map
        (fun cv => (cv.1, mkCatTable cfg.input_dim (p.catW cv.1) cv.2))
  , cont_embed_layers :=
      match cfg.continuous_cols with
      | some cs =>
        if cfg.embed_continuous then
          cs.map (fun c =>
            (c, ((List.range cfg.input_dim).map (p.contW c),
                 (List.range cfg.input_dim).map (p.contB c))))
        else []
      | none => []
  , blocks := (List.range cfg.n_blocks).map EncoderBlock.transformer
  , mlp_dims := resolvedMlpHiddenDims cfg
  , output_dim := (resolvedMlpHiddenDims cfg).getLastD 0 }

/-- Allocation events emitted by a successful TabTransformer.__init__, in
the order the corresponding modules are constructed. -/
def allocEvents (cfg : Config) : List AllocEvent :=
  (cfg.embed_input.map
    (fun cv => AllocEvent.catEmbed cv.1 (cv.2 + 1) cfg.input_dim)) ++
  (match cfg.continuous_cols with
   | some cs =>
     AllocEvent.contNorm cfg.cont_norm_layer cs.length ::
       (if cfg.embed_continuous then cs.map AllocEvent.contEmbed else [])
   | none => []) ++
  ((List.range cfg.n_blocks).map AllocEvent.encoderBlock) ++
  [AllocEvent.mlp (resolvedMlpHiddenDims cfg)]

/-- TabTransformer.__init__ (lines 125-215). The special-token consistency
check (lines 177-181) runs after the plain attribute assignments and before
_set_categ_embeddings, _set_cont_cols, the encoder blocks and the MLP are
built, so a failing check allocates nothing: the event list is empty. -/
def initWithTrace (cfg : Config) (p : Params) :
    Except String TabModel × List AllocEvent :=
  if (cfg.column_idx.lookup specialTokenKey).isSome ∧
      cfg.with_special_token = false then
    (Except.error specialTokenErr, [])
  else
    (Except.ok (mkModel cfg p), allocEvents cfg)

/-- Constructed TabTransformer model (or the construction error). -/
def tabInit (cfg : Config) (p : Params) : Except String TabModel :=
  (initWithTrace cfg p).1

/-- SAINT.__init__ (lines 450-519): first the full TabTransformer
constructor runs via super().__init__ with identical arguments, then
transformer_blks is overwritten with n_blocks SaintEncoder blocks whose
n_feats is len(embed_input) + len(continuous_cols) when embed_continuous
else len(embed_input) (lines 502-519). When embed_continuous is true while
continuous_cols is None, len(None) raises a TypeError. -/
def saintInit (cfg : Config) (p : Params) : Except String TabModel :=
  match tabInit cfg p with
  | Except.error e => Except.error e
  | Except.ok m =>
    if cfg.embed_continuous then
      match cfg.continuous_cols with
      | none => Except.error lenNoneErr
      | some cs =>
        let blks := (List.range cfg.n_blocks).map
          (fun i => EncoderBlock.saint i i (cfg.embed_input.length + cs.length))
        Except.ok { m with blocks := blks }
    else
      let blks := (List.range cfg.n_blocks).map
        (fun i => EncoderBlock.saint i i cfg.embed_input.length)
      Except.ok { m with blocks := blks }

/-- A successful construction yields exactly the mkModel record. -/
theorem tabInit_ok {cfg : Config} {p : Params} {m : TabModel}
    (h : tabInit cfg p = Except.ok m) : m = mkModel cfg p := by
  unfold tabInit initWithTrace at h
  by_cases hc : (cfg.column_idx.lookup specialTokenKey).isSome ∧
      cfg.with_special_token = false
  · rw [if_pos hc] at h
    simp at h
  · rw [if_neg hc] at h
    simp at h
    exact h.symm

/-- True exactly on successful constructions. -/
def isOkE {ε α : Type} : Except ε α → Bool
  | Except.ok _ => true
  | Except.error _ => false

/-- The default hidden dimensions are always the three-element list
[w, 4w, 2w] with w exactly as described by rules 1-4 of specification
section 4.1. -/
theorem setMlp_eq_spec (cfg : Config) :
    setMlpHiddenDims cfg =
      [specResolvedWidth cfg, specResolvedWidth cfg * 4,
       specResolvedWidth cfg * 2] := by
  unfold setMlpHiddenDims specResolvedWidth
  cases h : cfg.continuous_cols with
  | none => simp
  | some cs =>
    cases hw : cfg.with_special_token <;>
      cases he : cfg.embed_continuous <;> simp

/-- C1: the claim states that for every valid combination of (embed_input,
continuous_cols, with_special_token, embed_continuous) the first element of
_set_mlp_hidden_dims equals the last dimension of the tensor the forward
pass hands to the output MLP. The code violates this when the data was
preprocessed with the special token but there are no continuous columns:
construction succeeds, the resolver falls into the no-continuous branch
(line 332) and returns len(embed_input) * input_dim = 8, yet forward pools
the first token (line 251) and hands the MLP a tensor of width
input_dim = 4, so the first MLP layer raises a shape mismatch at runtime.
The resolver's purpose is precisely to match the forward width, so this is
a slip in the code (the special-token case is handled only under the
continuous branch, lines 311-320). -/
theorem c1_resolver_forward_mismatch :
    isOkE (tabInit cfgC1 pZero) = true
    ∧ (setMlpHiddenDims cfgC1).headD 0 = 8
    ∧ forwardMlpInputWidth cfgC1 = 4
    ∧ (setMlpHiddenDims cfgC1).headD 0 ≠ forwardMlpInputWidth cfgC1 := by
  decide

/-- Configuration supplying an explicitly empty mlp_hidden_dims list. -/
def cfgC2 : Config :=
  { column_idx := [("a", 0)]
  , embed_input := [("a", 3)]
  , input_dim := 2
  , mlp_hidden_dims := some [] }

/-- C2 counterexample: the claim states that explicitly supplied
mlp_hidden_dims are used verbatim and the default rules are never
consulted. Supplying the explicit empty list refutes this: the Python guard
if not mlp_hidden_dims (line 203) is a truthiness test, so an empty list is
treated like None and the default rules are consulted. -/
theorem c2_counterexample :
    cfgC2.mlp_hidden_dims = some []
    ∧ resolvedMlpHiddenDims cfgC2 ≠ []
    ∧ resolvedMlpHiddenDims cfgC2 = setMlpHiddenDims cfgC2 := by
  decide

/-- C2 (amended): when the caller supplies a non-empty mlp_hidden_dims it
is used verbatim; when mlp_hidden_dims is absent (or explicitly the empty
list, which the truthiness guard on line 203 treats as absent) the result
is [w, 4w, 2w] where w follows the four resolver rules of the claim:
count(categorical) * model_width with no continuous columns;
(count(categorical) + count(continuous)) * model_width for embedded
continuous without special token; count(categorical) * model_width +
count(continuous) for un-embedded continuous without special token; and the
special-token cases model_width resp. model_width + count(continuous). -/
theorem c2_mlp_dims (cfg : Config) :
    (∀ l : List Nat, cfg.mlp_hidden_dims = some l → l ≠ [] →
        resolvedMlpHiddenDims cfg = l)
    ∧ (cfg.mlp_hidden_dims = none ∨ cfg.mlp_hidden_dims = some [] →
        resolvedMlpHiddenDims cfg =
          [specResolvedWidth cfg, specResolvedWidth cfg * 4,
           specResolvedWidth cfg * 2]) := by
  constructor
  · intro l hl hne
    unfold resolvedMlpHiddenDims
    rw [hl]
    simp [hne]
  · intro h
    unfold resolvedMlpHiddenDims
    rcases h with h | h <;> rw [h] <;> simp [setMlp_eq_spec]

/-- Instantiation of c2_mlp_dims: a supplied non-empty list is used
verbatim, and an absent one yields the defaults. -/
theorem c2_witness :
    resolvedMlpHiddenDims { cfgC2 with mlp_hidden_dims := some [7, 5] } = [7, 5]
    ∧ resolvedMlpHiddenDims { cfgC2 with mlp_hidden_dims := none } =
        [specResolvedWidth { cfgC2 with mlp_hidden_dims := none },
         specResolvedWidth { cfgC2 with mlp_hidden_dims := none } * 4,
         specResolvedWidth { cfgC2 with mlp_hidden_dims := none } * 2] :=
  ⟨(c2_mlp_dims { cfgC2 with mlp_hidden_dims := some [7, 5] }).1 [7, 5]
      rfl (by decide),
   (c2_mlp_dims { cfgC2 with mlp_hidden_dims := none }).2 (Or.inl rfl)⟩

/-- Configuration whose column index declares the special token while the
flag is off: construction must fail. -/
def cfgC4bad : Config :=
  { column_idx := [(specialTokenKey, 0), ("a", 1)]
  , embed_input := [(specialTokenKey, 1), ("a", 3)]
  , with_special_token := false }

/-- C4: if column_idx contains the reserved special-token key while
with_special_token is false, construction fails with the configuration
error and the allocation trace is empty, i.e. the failure happens before
any embedding table, encoder block or MLP is built (the guard on lines
177-181 precedes _set_categ_embeddings, _set_cont_cols, the block loop and
the MLP construction); with consistent flags construction succeeds,
producing the full model and its allocations. -/
theorem c4_special_token_guard (cfg : Config) (p : Params) :
    ((cfg.column_idx.lookup specialTokenKey).isSome ∧
        cfg.with_special_token = false →
      initWithTrace cfg p = (Except.error specialTokenErr, []))
    ∧ (¬((cfg.column_idx.lookup specialTokenKey).isSome ∧
        cfg.with_special_token = false) →
      initWithTrace cfg p = (Except.ok (mkModel cfg p), allocEvents cfg)) := by
  constructor
  · intro h
    unfold initWithTrace
    rw [if_pos h]
  · intro h
    unfold initWithTrace
    rw [if_neg h]

/-- Instantiation of c4_special_token_guard on a failing and on a
consistent configuration. -/
theorem c4_witness :
    initWithTrace cfgC4bad pZero = (Except.error specialTokenErr, [])
    ∧ initWithTrace cfgC1 pZero =
        (Except.ok (mkModel cfgC1 pZero), allocEvents cfgC1) :=
  ⟨(c4_special_token_guard cfgC4bad pZero).1 ⟨by decide, by decide⟩,
   (c4_special_token_guard cfgC1 pZero).2 (by decide)⟩

/-- Value of column col in the batch row X, i.e. X[:, self.column_idx[col]]
(lines 221, 232, 256). The ColumnIndex invariant (specification section 3)
guarantees every referenced column is a key, so the defaults are inert. -/
def colVal (m : TabModel) (col : String) (X : List Int) : Int :=
  X.getD ((m.column_idx.lookup col).getD 0) 0

/-- Embedding lookup performed in forward lines 220-222: the raw integer
code (.long() is the identity on the integer-valued inputs of the model)
indexes the column's table directly. Category codes are non-negative, so
Int.toNat is the identity on them; an out-of-range index, an IndexError in
torch, is modelled by the zero default row. -/
def catToken (m : TabModel) (col : String) (X : List Int) : List Int :=
  ((m.cat_embed_layers.lookup col).getD []).getD
    (colVal m col X).toNat (List.replicate m.input_dim 0)

/-- Continuous embedder applied in forward lines 230-235: the scalar value
passes through nn.Linear(1, input_dim) followed by nn.ReLU (line 304). -/
def contToken (m : TabModel) (col : String) (X : List Int) : List Int :=
  let wb := (m.cont_embed_layers.lookup col).getD ([], [])
  List.zipWith (fun w b => max 0 (w * colVal m col X + b)) wb.1 wb.2

/-- Token sequence handed to the encoder blocks by forward lines 219-237:
one token per categorical column in embed_input order (lines 219-225),
then, when continuous columns are present and embedded, one token per
continuous column in continuous_cols order (lines 229-237). The embedding
dropout of lines 226-227 has no parameters and is the identity in
evaluation mode. -/
def buildTokens (m : TabModel) (X : List Int) : List (List Int) :=
  (m.embed_input.map (fun cv => catToken m cv.1 X)) ++
    (match m.continuous_cols with
     | some cs =>
       if m.embed_continuous then cs.map (fun c => contToken m c X) else []
     | none => [])

/-- Embedding lookup as claim C3 describes it: the raw code is offset by +1
before indexing the table. -/
def specCatLookup (table : List (List Int)) (d : Nat) (code : Nat) :
    List Int :=
  table.getD (code + 1) (List.replicate d 0)

/-- Single categorical column of cardinality 3, one-dimensional embeddings. -/
def cfgC3 : Config :=
  { column_idx := [("a", 0)], embed_input := [("a", 3)], input_dim := 1 }

/-- Parameters making distinct table rows distinguishable: row i holds the
value i. -/
def pRows : Params :=
  { catW := fun _ i _ => Int.ofNat i
  , contW := fun _ _ => 0
  , contB := fun _ _ => 0 }

/-- C3 counterexample: the claim states the raw category code is offset by
+1 before indexing the table during the forward pass. In the model built
from cfgC3 the table of column a is [[0], [1], [2], [3]]; the forward
lookup for raw code 1 (line 221 passes the code unchanged) returns row 1,
not row 2 as the claimed +1 offset would. -/
theorem c3_counterexample :
    ((mkModel cfgC3 pRows).cat_embed_layers.lookup ("a")).getD [] =
      [[0], [1], [2], [3]]
    ∧ catToken (mkModel cfgC3 pRows) ("a") [1] = [1]
    ∧ specCatLookup (((mkModel cfgC3 pRows).cat_embed_layers.lookup
        ("a")).getD []) 1 1 = [2]
    ∧ catToken (mkModel cfgC3 pRows) ("a") [1] ≠
        specCatLookup (((mkModel cfgC3 pRows).cat_embed_layers.lookup
          ("a")).getD []) 1 1 := by
  decide

/-- List.getD through List.map at an in-range index. -/
theorem getD_map_of_lt {α β : Type} (f : α → β) (l : List α) (i : Nat)
    (hi : i < l.length) (d : α) (d' : β) :
    (l.map f).getD i d' = f (l.getD i d) := by
  rw [List.getD_eq_getElem?_getD, List.getD_eq_getElem?_getD,
    List.getElem?_map, List.getElem?_eq_getElem hi]
  rfl

/-- C3 (amended): for every categorical column (col, val) the embedding
table allocated at construction has val + 1 rows of width input_dim with
row 0 (the padding/unseen row, padding_idx=0 on line 283) zero-initialised,
and the forward pass indexes the table with the raw category code directly:
no +1 offset is applied at lookup time, the reservation of code 0 being
established by the preprocessor. -/
theorem c3_table_shape_and_raw_lookup (cfg : Config) (p : Params)
    (m : TabModel) (hm : tabInit cfg p = Except.ok m) (i : Nat)
    (hi : i < cfg.embed_input.length) :
    (m.cat_embed_layers.getD i ("", [])).1 =
      (cfg.embed_input.getD i ("", 0)).1
    ∧ (m.cat_embed_layers.getD i ("", [])).2.length =
        (cfg.embed_input.getD i ("", 0)).2 + 1
    ∧ (m.cat_embed_layers.getD i ("", [])).2.headD [] =
        List.replicate cfg.input_dim 0
    ∧ ∀ X : List Int,
        catToken m (cfg.embed_input.getD i ("", 0)).1 X =
          ((m.cat_embed_layers.lookup
              (cfg.embed_input.getD i ("", 0)).1).getD []).getD
            (colVal m (cfg.embed_input.getD i ("", 0)).1 X).toNat
            (List.replicate m.input_dim 0) := by
  obtain rfl := tabInit_ok hm
  refine ⟨?_, ?_, ?_, fun X => rfl⟩
  · rw [show (mkModel cfg p).cat_embed_layers =
      cfg.embed_input.map
        (fun cv => (cv.1, mkCatTable cfg.input_dim (p.catW cv.1) cv.2))
      from rfl, getD_map_of_lt _ _ _ hi ("", 0)]
  · rw [show (mkModel cfg p).cat_embed_layers =
      cfg.embed_input.map
        (fun cv => (cv.1, mkCatTable cfg.input_dim (p.catW cv.1) cv.2))
      from rfl, getD_map_of_lt _ _ _ hi ("", 0)]
    simp [mkCatTable]
  · rw [show (mkModel cfg p).cat_embed_layers =
      cfg.embed_input.map
        (fun cv => (cv.1, mkCatTable cfg.input_dim (p.catW cv.1) cv.2))
      from rfl, getD_map_of_lt _ _ _ hi ("", 0)]
    simp [mkCatTable, List.range_succ_eq_map]

/-- Instantiation of c3_table_shape_and_raw_lookup on cfgC3. -/
theorem c3_witness :
    ((mkModel cfgC3 pRows).cat_embed_layers.getD 0 ("", [])).1 = "a"
    ∧ ((mkModel cfgC3 pRows).cat_embed_layers.getD 0 ("", [])).2.length = 4
    ∧ ((mkModel cfgC3 pRows).cat_embed_layers.getD 0 ("", [])).2.headD [] =
        List.replicate 1 0
    ∧ catToken (mkModel cfgC3 pRows) ("a") [2] =
        (((mkModel cfgC3 pRows).cat_embed_layers.lookup ("a")).getD
          []).getD 2 (List.replicate 1 0) := by
  have h := c3_table_shape_and_raw_lookup cfgC3 pRows (mkModel cfgC3 pRows)
    rfl 0 (by decide)
  exact ⟨h.1, h.2.1, h.2.2.1, h.2.2.2 [2]⟩

/-- C9: the token sequence fed to the encoder is built in a fixed order,
one token per categorical column in embed_input order followed, when
continuous columns are embedded, by one token per continuous column in
continuous_cols order, and this is independent of the columns' positions in
column_idx: two constructions differing only in column_idx produce
identical token sequences whenever the per-column values read off the
respective rows agree. -/
theorem c9_token_order (cfg : Config) (ci2 : List (String × Nat))
    (p : Params) (m1 m2 : TabModel) (X1 X2 : List Int)
    (h1 : tabInit cfg p = Except.ok m1)
    (h2 : tabInit { cfg with column_idx := ci2 } p = Except.ok m2)
    (hcat : ∀ cv ∈ cfg.embed_input, colVal m1 cv.1 X1 = colVal m2 cv.1 X2)
    (hcont : ∀ c ∈ cfg.continuous_cols.getD [],
      colVal m1 c X1 = colVal m2 c X2) :
    buildTokens m1 X1 =
      (cfg.embed_input.map (fun cv => catToken m1 cv.1 X1)) ++
        (match cfg.continuous_cols with
         | some cs =>
           if cfg.embed_continuous then cs.map (fun c => contToken m1 c X1)
           else []
         | none => [])
    ∧ buildTokens m1 X1 = buildTokens m2 X2 := by
  obtain rfl := tabInit_ok h1
  obtain rfl := tabInit_ok h2
  refine ⟨rfl, ?_⟩
  unfold buildTokens
  refine congrArg₂ (· ++ ·) ?_ ?_
  · apply List.map_congr_left
    intro cv hcv
    show catToken (mkModel cfg p) cv.1 X1 =
      catToken (mkModel { cfg with column_idx := ci2 } p) cv.1 X2
    unfold catToken
    rw [hcat cv hcv]
    rfl
  · show (match cfg.continuous_cols with
      | some cs =>
        if cfg.embed_continuous then
          cs.map (fun c => contToken (mkModel cfg p) c X1)
        else []
      | none => []) =
      (match cfg.continuous_cols with
      | some cs =>
        if cfg.embed_continuous then
          cs.map (fun c =>
            contToken (mkModel { cfg with column_idx := ci2 } p) c X2)
        else []
      | none => [])
    cases hc : cfg.continuous_cols with
    | none => rfl
    | some cs =>
      cases he : cfg.embed_continuous with
      | false => simp
      | true =>
        simp only [if_pos rfl]
        apply List.map_congr_left
        intro c hcm
        unfold contToken
        rw [hcont c (by rw [hc]; exact hcm)]
        simp only [mkModel]
        rw [hc, he]
        simp

/-- Configuration for the C9 instantiation: one categorical and one
embedded continuous column. -/
def cfgC9 : Config :=
  { column_idx := [("a", 0), ("e", 1)]
  , embed_input := [("a", 3)]
  , continuous_cols := some ["e"]
  , embed_continuous := true
  , input_dim := 2 }

/-- Instantiation of c9_token_order: swapping the two positions in
column_idx and permuting the row accordingly leaves the token sequence
unchanged. -/
theorem c9_witness :
    buildTokens (mkModel cfgC9 pRows) [2, 5] =
      (cfgC9.embed_input.map
        (fun cv => catToken (mkModel cfgC9 pRows) cv.1 [2, 5])) ++
        (match cfgC9.continuous_cols with
         | some cs =>
           if cfgC9.embed_continuous then
             cs.map (fun c => contToken (mkModel cfgC9 pRows) c [2, 5])
           else []
         | none => [])
    ∧ buildTokens (mkModel cfgC9 pRows) [2, 5] =
        buildTokens
          (mkModel { cfgC9 with column_idx := [("e", 0), ("a", 1)] } pRows)
          [5, 2] :=
  c9_token_order cfgC9 [("e", 0), ("a", 1)] pRows
    (mkModel cfgC9 pRows)
    (mkModel { cfgC9 with column_idx := [("e", 0), ("a", 1)] } pRows)
    [2, 5] [5, 2] rfl rfl (by decide) (by decide)

/-- A key found by List.lookup is paired with its value somewhere in the
list. -/
theorem lookup_mem {β : Type} {l : List (String × β)} {k : String} {v : β}
    (h : l.lookup k = some v) : ∃ k2, (k2, v) ∈ l := by
  induction l with
  | nil => simp at h
  | cons a t ih =>
    rcases a with ⟨ka, va⟩
    rw [List.lookup_cons] at h
    cases hk : k == ka with
    | false =>
      rw [hk] at h
      obtain ⟨k2, hm⟩ := ih h
      exact ⟨k2, by simp [hm]⟩
    | true =>
      rw [hk] at h
      simp at h
      subst h
      exact ⟨ka, by simp⟩

/-- Looking up a present key in the graph of a function over a key list. -/
theorem lookup_map_graph {β : Type} (f : String → β) (cs : List String)
    (c : String) (hc : c ∈ cs) :
    (cs.map (fun x => (x, f x))).lookup c = some (f c) := by
  induction cs with
  | nil => simp at hc
  | cons a t ih =>
    rw [List.map_cons, List.lookup_cons]
    cases hk : c == a with
    | true =>
      have hca : c = a := by simpa using hk
      rw [hca]
    | false =>
      have hne : c ≠ a := by simpa using hk
      exact ih ((List.mem_cons.1 hc).resolve_left hne)

/-- Every row of a constructed embedding table has width d. -/
theorem mkCatTable_row_width {d : Nat} {w : Nat → Nat → Int} {val : Nat} :
    ∀ r ∈ mkCatTable d w val, r.length = d := by
  intro r hr
  unfold mkCatTable at hr
  obtain ⟨i, hi, rfl⟩ := List.mem_map.1 hr
  by_cases h0 : i = 0 <;> simp [h0]

/-- The default element of a nonempty list is its head, hence a member. -/
theorem headD_mem {α : Type} {l : List α} (h : l ≠ []) (d : α) :
    l.headD d ∈ l := by
  cases l with
  | nil => exact absurd rfl h
  | cons a t => simp

/-- Number of tokens in the encoder input sequence (lines 225, 236-237):
the categorical columns plus, when present and embedded, the continuous
columns. -/
def numTokens (cfg : Config) : Nat :=
  cfg.embed_input.length +
    (match cfg.continuous_cols with
     | some cs => if cfg.embed_continuous then cs.length else 0
     | none => 0)

/-- Every token built by the forward pass of a constructed model has width
input_dim. -/
theorem buildTokens_width (cfg : Config) (p : Params) (X : List Int) :
    ∀ t ∈ buildTokens (mkModel cfg p) X, t.length = cfg.input_dim := by
  intro t ht
  unfold buildTokens at ht
  rcases List.mem_append.1 ht with h | h
  · obtain ⟨cv, hcv, rfl⟩ := List.mem_map.1 h
    unfold catToken
    cases hlk : (mkModel cfg p).cat_embed_layers.lookup cv.1 with
    | none =>
      simp only [Option.getD_none, List.getD_nil, List.length_replicate]
      rfl
    | some tbl =>
      obtain ⟨k2, hm⟩ := lookup_mem hlk
      have hrows : ∀ r ∈ tbl, r.length = cfg.input_dim := by
        rw [show (mkModel cfg p).cat_embed_layers =
          cfg.embed_input.map
            (fun cv => (cv.1, mkCatTable cfg.input_dim (p.catW cv.1) cv.2))
          from rfl] at hm
        obtain ⟨x, hx, hpair⟩ := List.mem_map.1 hm
        have h2 : mkCatTable cfg.input_dim (p.catW x.1) x.2 = tbl :=
          congrArg Prod.snd hpair
        rw [← h2]
        exact mkCatTable_row_width
      simp only [Option.getD_some]
      rw [List.getD_eq_getElem?_getD]
      cases hg : tbl[(colVal (mkModel cfg p) cv.1 X).toNat]? with
      | none =>
        simp only [hg, Option.getD_none, List.length_replicate]
        rfl
      | some row =>
        simp only [hg, Option.getD_some]
        exact hrows row (List.getElem?_mem hg)
  · have hmt : t ∈ (match cfg.continuous_cols with
      | some cs =>
        if cfg.embed_continuous then
          cs.map (fun c => contToken (mkModel cfg p) c X)
        else []
      | none => []) := h
    cases hc : cfg.continuous_cols with
    | none => rw [hc] at hmt; simp at hmt
    | some cs =>
      rw [hc] at hmt
      cases he : cfg.embed_continuous with
      | false => rw [he] at hmt; simp at hmt
      | true =>
        rw [he] at hmt
        simp only [if_pos rfl] at hmt
        obtain ⟨c, hcm, rfl⟩ := List.mem_map.1 hmt
        unfold contToken
        have hlk : (mkModel cfg p).cont_embed_layers.lookup c =
            some ((List.range cfg.input_dim).map (p.contW c),
              (List.range cfg.input_dim).map (p.contB c)) := by
          rw [show (mkModel cfg p).cont_embed_layers =
            (match cfg.continuous_cols with
             | some cs2 =>
               if cfg.embed_continuous then
                 cs2.map (fun x =>
                   (x, ((List.range cfg.input_dim).map (p.contW x),
                        (List.range cfg.input_dim).map (p.contB x))))
               else []
             | none => []) from rfl, hc, he]
          simp only [if_pos rfl]
          exact lookup_map_graph
            (fun x => ((List.range cfg.input_dim).map (p.contW x),
              (List.range cfg.input_dim).map (p.contB x))) cs c hcm
        rw [hlk]
        simp

/-- The forward pass builds exactly numTokens tokens. -/
theorem buildTokens_length (cfg : Config) (p : Params) (X : List Int) :
    (buildTokens (mkModel cfg p) X).length = numTokens cfg := by
  unfold buildTokens numTokens
  rw [List.length_append, List.length_map,
    show (mkModel cfg p).embed_input = cfg.embed_input from rfl]
  congr 1
  show (match cfg.continuous_cols with
    | some cs =>
      if cfg.embed_continuous then
        cs.map (fun c => contToken (mkModel cfg p) c X)
      else []
    | none => ([] : List (List Int))).length = _
  cases cfg.continuous_cols with
  | none => rfl
  | some cs => cases cfg.embed_continuous <;> simp

/-- A map on (tokens, width) matrices preserving the token count and the
row width: the contract of an encoder block per specification section 4.3
(the blocks themselves are implemented in layers.py, outside the sources). -/
def ShapePreserving (d : Nat) (f : List (List Int) → List (List Int)) :
    Prop :=
  ∀ y : List (List Int), (∀ r ∈ y, r.length = d) →
    (f y).length = y.length ∧ ∀ r ∈ f y, r.length = d

/-- Sequential application of the encoder blocks (forward lines 239-240). -/
def applyBlocks (fs : List (List (List Int) → List (List Int)))
    (x : List (List Int)) : List (List Int) :=
  fs.foldl (fun a f => f a) x

/-- A chain of shape-preserving blocks is shape-preserving. -/
theorem applyBlocks_shape {d : Nat}
    (fs : List (List (List Int) → List (List Int)))
    (hfs : ∀ f ∈ fs, ShapePreserving d f) :
    ∀ y : List (List Int), (∀ r ∈ y, r.length = d) →
      (applyBlocks fs y).length = y.length ∧
        ∀ r ∈ applyBlocks fs y, r.length = d := by
  induction fs with
  | nil => exact fun y hy => ⟨rfl, hy⟩
  | cons f t ih =>
    intro y hy
    obtain ⟨hl, hw⟩ := hfs f (by simp) y hy
    have hrec := ih (fun g hg => hfs g (by simp [hg])) (f y) hw
    exact ⟨hrec.1.trans hl, hrec.2⟩

/-- Encoder output for one sample: the token sequence after the block
chain. -/
def forwardEncoded (m : TabModel)
    (fs : List (List (List Int) → List (List Int))) (X : List Int) :
    List (List Int) :=
  applyBlocks fs (buildTokens m X)

/-- Pooling stage of forward (lines 250-253): the first token when the
special token was used, the flattening of all tokens otherwise. -/
def pooledOutput (m : TabModel)
    (fs : List (List (List Int) → List (List Int))) (X : List Int) :
    List Int :=
  if m.with_special_token then (forwardEncoded m fs X).headD []
  else (forwardEncoded m fs X).join

/-- Sum of the lengths of uniformly sized rows. -/
theorem sum_map_length_const {d : Nat} :
    ∀ l : List (List Int), (∀ r ∈ l, r.length = d) →
      (l.map List.length).sum = l.length * d := by
  intro l
  induction l with
  | nil => simp
  | cons a t ih =>
    intro h
    rw [List.map_cons, List.sum_cons, h a (by simp),
      ih (fun r hr => h r (by simp [hr])), List.length_cons, Nat.succ_mul,
      Nat.add_comm]

/-- C7: for every forward pass of a constructed model through
shape-preserving encoder blocks, if with_special_token is true the pooled
encoder output is exactly the first token's representation and has width
input_dim per sample; otherwise it is the flattening of all token
representations and has width numTokens * input_dim per sample. -/
theorem c7_pooling (cfg : Config) (p : Params) (m : TabModel)
    (fs : List (List (List Int) → List (List Int))) (X : List Int)
    (hm : tabInit cfg p = Except.ok m)
    (hfs : ∀ f ∈ fs, ShapePreserving cfg.input_dim f)
    (hne : cfg.embed_input ≠ []) :
    (m.with_special_token = true →
      pooledOutput m fs X = (forwardEncoded m fs X).headD []
      ∧ (pooledOutput m fs X).length = cfg.input_dim)
    ∧ (m.with_special_token = false →
      pooledOutput m fs X = (forwardEncoded m fs X).join
      ∧ (pooledOutput m fs X).length = numTokens cfg * cfg.input_dim) := by
  obtain rfl := tabInit_ok hm
  have hw := buildTokens_width cfg p X
  have hlen := buildTokens_length cfg p X
  have henc := applyBlocks_shape fs hfs (buildTokens (mkModel cfg p) X) hw
  constructor
  · intro hst
    have hpool : pooledOutput (mkModel cfg p) fs X =
        (forwardEncoded (mkModel cfg p) fs X).headD [] := by
      unfold pooledOutput
      rw [if_pos hst]
    refine ⟨hpool, ?_⟩
    rw [hpool]
    have hne2 : forwardEncoded (mkModel cfg p) fs X ≠ [] := by
      have hpos : 0 < (forwardEncoded (mkModel cfg p) fs X).length := by
        unfold forwardEncoded
        rw [henc.1, hlen]
        unfold numTokens
        have : 0 < cfg.embed_input.length := List.length_pos.2 hne
        omega
      exact List.ne_nil_of_length_pos hpos
    exact henc.2 _ (headD_mem hne2 [])
  · intro hst
    have hpool : pooledOutput (mkModel cfg p) fs X =
        (forwardEncoded (mkModel cfg p) fs X).join := by
      unfold pooledOutput
      rw [if_neg (by rw [hst]; exact Bool.false_ne_true)]
    refine ⟨hpool, ?_⟩
    rw [hpool, List.length_join]
    unfold forwardEncoded
    rw [sum_map_length_const _ henc.2, henc.1, hlen]

/-- Configuration with a special token and no continuous columns for the
c7 instantiation. -/
def cfgC7 : Config :=
  { column_idx := [(specialTokenKey, 0), ("b", 1)]
  , embed_input := [(specialTokenKey, 1), ("b", 2)]
  , with_special_token := true
  , input_dim := 3 }

/-- Instantiation of c7_pooling on both pooling branches. -/
theorem c7_witness :
    (pooledOutput (mkModel cfgC7 pZero)
        ([] : List (List (List Int) → List (List Int))) [0, 1] =
      (forwardEncoded (mkModel cfgC7 pZero)
        ([] : List (List (List Int) → List (List Int))) [0, 1]).headD []
    ∧ (pooledOutput (mkModel cfgC7 pZero)
        ([] : List (List (List Int) → List (List Int))) [0, 1]).length = 3)
    ∧ (pooledOutput (mkModel cfgC9 pZero)
        ([] : List (List (List Int) → List (List Int))) [2, 5] =
      (forwardEncoded (mkModel cfgC9 pZero)
        ([] : List (List (List Int) → List (List Int))) [2, 5]).join
    ∧ (pooledOutput (mkModel cfgC9 pZero)
        ([] : List (List (List Int) → List (List Int))) [2, 5]).length =
      numTokens cfgC9 * 2) :=
  ⟨(c7_pooling cfgC7 pZero (mkModel cfgC7 pZero) [] [0, 1] rfl
      (by simp) (by decide)).1 rfl,
   (c7_pooling cfgC9 pZero (mkModel cfgC9 pZero) [] [2, 5] rfl
      (by simp) (by decide)).2 rfl⟩

/-- One entry of the attention_weights record (forward lines 241-248): a
single tensor for a standard block, a pair (self_attn weights, row_attn
weights) for a dual-attention block. spec section 4.3 calls the across-token
attention, self_attn in the code, the row-wise attention, and the
inter-sample attention, row_attn in the code, the column-wise attention. -/
inductive AttnEntry
  | single (w : Nat)
  | pair (wSelf wRow : Nat)
deriving DecidableEq

/-- The entry forward stores for a block: line 248 stores the block's
self_attn weights; lines 242-246 detect a dual block via hasattr(blk,
row_attn) and store the (self_attn, row_attn) pair. -/
def entryOf : EncoderBlock → AttnEntry
  | EncoderBlock.transformer w => AttnEntry.single w
  | EncoderBlock.saint ws wr _ => AttnEntry.pair ws wr

/-- The indexed filling loop of forward lines 239-248: walking the blocks
in order, entry i of the record is overwritten with block i's weights. -/
def attnLoop : List EncoderBlock → Nat → List (Option AttnEntry) →
    List (Option AttnEntry)
  | [], _, acc => acc
  | b :: bs, i, acc => attnLoop bs (i + 1) (acc.set i (some (entryOf b)))

/-- The attention_weights record after one forward pass: initialised to
[None] * n_blocks at construction (line 201) when keep_attn_weights is set,
then filled by the loop; without keep_attn_weights the attribute is never
created, modelled by the empty record. -/
def forwardAttn (m : TabModel) : List (Option AttnEntry) :=
  if m.keep_attn_weights then
    attnLoop m.blocks 0 (List.replicate m.n_blocks none)
  else []

/-- Setting the element just past a prefix. -/
theorem set_append_length {α : Type} (pre : List α) (a y : α)
    (rest : List α) : (pre ++ a :: rest).set pre.length y = pre ++ y :: rest := by
  induction pre with
  | nil => rfl
  | cons x t ih => simp [List.set, ih]

/-- The filling loop starting past an already-filled prefix produces the
map of entries in block order. -/
theorem attnLoop_eq_map (bs : List EncoderBlock) :
    ∀ pre : List (Option AttnEntry),
      attnLoop bs pre.length (pre ++ List.replicate bs.length none) =
        pre ++ bs.map (fun b => some (entryOf b)) := by
  induction bs with
  | nil => intro pre; simp [attnLoop]
  | cons b t ih =>
    intro pre
    rw [List.length_cons, List.replicate_succ]
    simp only [attnLoop]
    rw [set_append_length]
    have h2 := ih (pre ++ [some (entryOf b)])
    simp only [List.length_append, List.length_cons, List.length_nil,
      List.append_assoc, List.singleton_append, Nat.zero_add] at h2
    rw [List.map_cons]
    exact h2

/-- C6: after a forward pass with keep_attn_weights set, on a model whose
block chain has the configured length (true of every constructed model),
the attention_weights record has exactly n_blocks entries, one per encoder
block in block order, and entry i matches block i's kind: a single weight
tensor for a standard transformer block and a (self-attention,
inter-sample-attention) pair for a dual-attention SAINT block. -/
theorem c6_attention_record (m : TabModel)
    (hk : m.keep_attn_weights = true)
    (hb : m.blocks.length = m.n_blocks) :
    (forwardAttn m).length = m.n_blocks
    ∧ forwardAttn m = m.blocks.map (fun b => some (entryOf b))
    ∧ ∀ i, i < m.n_blocks →
        (forwardAttn m).getD i none =
          some (match m.blocks.getD i (EncoderBlock.transformer 0) with
                | EncoderBlock.transformer w => AttnEntry.single w
                | EncoderBlock.saint ws wr _ => AttnEntry.pair ws wr) := by
  have hmap : forwardAttn m = m.blocks.map (fun b => some (entryOf b)) := by
    unfold forwardAttn
    rw [if_pos hk, ← hb]
    have := attnLoop_eq_map m.blocks []
    simpa using this
  refine ⟨by rw [hmap, List.length_map, hb], hmap, ?_⟩
  intro i hi
  rw [hmap, getD_map_of_lt _ _ _ (by rw [hb]; exact hi)
    (EncoderBlock.transformer 0)]
  cases m.blocks.getD i (EncoderBlock.transformer 0) <;> rfl

/-- A SAINT-style model with two dual-attention blocks for the c6
instantiation. -/
def mC6 : TabModel :=
  { mkModel { cfgC9 with keep_attn_weights := true, n_blocks := 2 } pZero
    with blocks := [EncoderBlock.saint 0 0 2, EncoderBlock.saint 1 1 2] }

/-- Instantiation of c6_attention_record on a two-block dual-attention
model. -/
theorem c6_witness :
    (forwardAttn mC6).length = mC6.n_blocks
    ∧ forwardAttn mC6 = mC6.blocks.map (fun b => some (entryOf b))
    ∧ ∀ i, i < mC6.n_blocks →
        (forwardAttn mC6).getD i none =
          some (match mC6.blocks.getD i (EncoderBlock.transformer 0) with
                | EncoderBlock.transformer w => AttnEntry.single w
                | EncoderBlock.saint ws wr _ => AttnEntry.pair ws wr) :=
  c6_attention_record mC6 (by decide) (by decide)

/-- C10: SAINT.__init__ with the same arguments yields exactly the
TabTransformer attribute state except that the encoder chain is replaced by
n_blocks dual-attention SaintEncoder blocks whose feature count is
len(embed_input) + len(continuous_cols) when embed_continuous is true and
len(embed_input) otherwise; every other field (embedding bank, continuous
handling, MLP dimensions, output_dim) is unchanged. -/
theorem c10_saint_frame (cfg : Config) (p : Params) (m : TabModel)
    (hm : tabInit cfg p = Except.ok m)
    (hc : cfg.embed_continuous = true → cfg.continuous_cols ≠ none) :
    saintInit cfg p = Except.ok
      { m with
        blocks :=
          (List.range cfg.n_blocks).map
            (fun i => EncoderBlock.saint i i
              (if cfg.embed_continuous then
                cfg.embed_input.length + (cfg.continuous_cols.getD []).length
               else cfg.embed_input.length)) } := by
  unfold saintInit
  rw [hm]
  cases he : cfg.embed_continuous with
  | false => simp
  | true =>
    cases hcc : cfg.continuous_cols with
    | none => exact absurd hcc (hc he)
    | some cs => simp

/-- Instantiation of c10_saint_frame: a SAINT built over cfgC9 agrees with
the TabTransformer built over cfgC9 except for its dual-attention blocks. -/
theorem c10_witness :
    saintInit cfgC9 pZero = Except.ok
      { mkModel cfgC9 pZero with
        blocks :=
          (List.range cfgC9.n_blocks).map
            (fun i => EncoderBlock.saint i i
              (if cfgC9.embed_continuous then
                cfgC9.embed_input.length +
                  (cfgC9.continuous_cols.getD []).length
               else cfgC9.embed_input.length)) } :=
  c10_saint_frame cfgC9 pZero (mkModel cfgC9 pZero) rfl (by decide)

/-- Fixed-size grouping of a list, with the list length as structural fuel
(one element is consumed per step whenever c is positive, so the fuel never
runs out on the calls below). The final group may be shorter than c. -/
def chunksOfF {α : Type} (c : Nat) : Nat → List α → List (List α)
  | _, [] => []
  | 0, l => [l]
  | fuel + 1, x :: xs => (x :: xs).take c :: chunksOfF c fuel ((x :: xs).drop c)

/-- Groups of c consecutive elements; with c = 0 (an invalid chunk or batch
size for pandas and for the torch DataLoader) no groups are produced. -/
def chunksOf {α : Type} (c : Nat) (l : List α) : List (List α) :=
  if c = 0 then [] else chunksOfF c l.length l

/-- Modelled from the spec: StreamTextDataset
(pytorch_widedeep/stream/_stream_ds.py, not among the sources) reads the
n-row source in chunksize-row chunks and yields the rows of each chunk in
order (specification sections 3 and 4.5); the stream of row indices is the
chunks flattened back in order. -/
def streamRows (n c : Nat) : List Nat :=
  (chunksOf c (List.range n)).join

/-- Modelled from the spec: the torch DataLoader wrapping the stream
(trainer.py lines 73-81) groups the yielded rows into batch_size-row
batches and, because drop_last=True (line 80), drops a final batch smaller
than batch_size. -/
def streamBatches (n c b : Nat) : List (List Nat) :=
  (chunksOf b (streamRows n c)).filter (fun batch => batch.length == b)

/-- Batch-update cycles per epoch. -/
def numBatches (n c b : Nat) : Nat := (streamBatches n c b).length

/-- Observable events of StreamTrainer.fit (trainer.py lines 62-105).
The last five constructors correspond to the hooks that surround the
training loop in the non-streaming trainer but are commented out in the
streaming variant (lines 96-104): on_batch_end, on_epoch_end, on_train_end,
print_loss_and_metric and save_epoch_logs. -/
inductive FitEvent
  | readStart (epoch : Nat)
  | epochBegin (epoch : Nat)
  | trainStep (epoch batch : Nat)
  | reportLoss (epoch : Nat)
  | batchEnd (epoch batch : Nat)
  | epochEnd (epoch : Nat)
  | trainEnd
  | printMetric (epoch batch : Nat)
  | saveLogs (epoch : Nat)
deriving DecidableEq

/-- Epoch an event belongs to. -/
def evEpoch : FitEvent → Nat
  | FitEvent.readStart e => e
  | FitEvent.epochBegin e => e
  | FitEvent.trainStep e _ => e
  | FitEvent.reportLoss e => e
  | FitEvent.batchEnd e _ => e
  | FitEvent.epochEnd e => e
  | FitEvent.trainEnd => 0
  | FitEvent.printMetric e _ => e
  | FitEvent.saveLogs e => e

/-- Events of the hooks that are commented out in the streaming fit. -/
def disabledHook : FitEvent → Bool
  | FitEvent.batchEnd _ _ => true
  | FitEvent.epochEnd _ => true
  | FitEvent.trainEnd => true
  | FitEvent.printMetric _ _ => true
  | FitEvent.saveLogs _ => true
  | _ => false

/-- Events of one epoch of StreamTrainer.fit (lines 84-95): the
on_epoch_begin callback fires (line 86), iterating the loader re-reads the
source from its start (the DataLoader re-invokes iter on the dataset each
epoch), one _train_step forward+loss+backward+optimizer-step cycle runs per
full batch (lines 89-94, _train_step lives in the base trainer outside the
sources and is modelled from the spec as one batch-update cycle), and the
loss is printed once after the batch loop (line 95). -/
def epochTrace (n c b e : Nat) : List FitEvent :=
  FitEvent.epochBegin e :: FitEvent.readStart e ::
    ((List.range (numBatches n c b)).map (fun i => FitEvent.trainStep e i) ++
      [FitEvent.reportLoss e])

/-- Event trace of StreamTrainer.fit over n_epochs epochs. -/
def fitTrace (n c b epochs : Nat) : List FitEvent :=
  (List.range epochs).flatMap (epochTrace n c b)

/-- Is the event a batch-update cycle. -/
def isTrainStep : FitEvent → Bool
  | FitEvent.trainStep _ _ => true
  | _ => false

/-- Is the event a batch-update cycle of epoch e. -/
def isTrainStepOf (e : Nat) : FitEvent → Bool
  | FitEvent.trainStep e2 _ => e2 == e
  | _ => false

/-- Every event of an epoch trace carries that epoch's index. -/
theorem mem_epochTrace_epoch {n c b e : Nat} {ev : FitEvent}
    (h : ev ∈ epochTrace n c b e) : evEpoch ev = e := by
  simp only [epochTrace, List.mem_cons, List.mem_append, List.mem_map,
    List.mem_singleton] at h
  rcases h with rfl | h
  · rfl
  rcases h with rfl | h
  · rfl
  rcases h with ⟨i, hi, rfl⟩ | rfl | h
  · rfl
  · rfl
  · simp at h

/-- No disabled hook ever appears in an epoch trace. -/
theorem epochTrace_no_disabled {n c b e : Nat} {ev : FitEvent}
    (h : ev ∈ epochTrace n c b e) : disabledHook ev = false := by
  simp only [epochTrace, List.mem_cons, List.mem_append, List.mem_map,
    List.mem_singleton] at h
  rcases h with rfl | h
  · rfl
  rcases h with rfl | h
  · rfl
  rcases h with ⟨i, hi, rfl⟩ | rfl | h
  · rfl
  · rfl
  · simp at h

/-- Unfolding one epoch at the end of the trace. -/
theorem fitTrace_succ (n c b E : Nat) :
    fitTrace n c b (E + 1) = fitTrace n c b E ++ epochTrace n c b E := by
  unfold fitTrace
  rw [List.range_succ, List.flatMap_append]
  simp

/-- Every event of the trace belongs to an epoch below the epoch count. -/
theorem mem_fitTrace_lt {n c b E : Nat} {ev : FitEvent}
    (h : ev ∈ fitTrace n c b E) : evEpoch ev < E := by
  induction E with
  | zero => simp [fitTrace] at h
  | succ E ih =>
    rw [fitTrace_succ] at h
    rcases List.mem_append.1 h with h2 | h2
    · exact Nat.lt_succ_of_lt (ih h2)
    · rw [mem_epochTrace_epoch h2]
      exact Nat.lt_succ_self E

/-- No disabled hook ever appears in the full trace. -/
theorem fitTrace_no_disabled {n c b E : Nat} {ev : FitEvent}
    (h : ev ∈ fitTrace n c b E) : disabledHook ev = false := by
  induction E with
  | zero => simp [fitTrace] at h
  | succ E ih =>
    rw [fitTrace_succ] at h
    rcases List.mem_append.1 h with h2 | h2
    · exact ih h2
    · exact epochTrace_no_disabled h2

/-- C8: in every epoch e of the streaming fit loop, the on_epoch_begin
hook fires exactly once (it occurs, and neither the earlier nor the later
part of the trace repeats it) and it fires before any batch-update cycle of
that epoch (no trainStep of epoch e precedes it), while the per-batch-end,
epoch-end, train-end, per-batch metric printing and epoch-log saving hooks
never occur anywhere in the trace. -/
theorem c8_hooks (n c b E e : Nat) (he : e < E) :
    (∃ A B, fitTrace n c b E = A ++ FitEvent.epochBegin e :: B
      ∧ (∀ b2, FitEvent.trainStep e b2 ∉ A)
      ∧ FitEvent.epochBegin e ∉ A
      ∧ FitEvent.epochBegin e ∉ B)
    ∧ ∀ ev ∈ fitTrace n c b E, disabledHook ev = false := by
  refine ⟨?_, fun ev hev => fitTrace_no_disabled hev⟩
  induction E with
  | zero => exact absurd he (Nat.not_lt_zero e)
  | succ E ih =>
    rcases Nat.lt_succ_iff_lt_or_eq.1 he with hlt | rfl
    · obtain ⟨A, B, hAB, h1, h2, h3⟩ := ih hlt
      refine ⟨A, B ++ epochTrace n c b E, ?_, h1, h2, ?_⟩
      · rw [fitTrace_succ, hAB]
        simp
      · intro hmem
        rcases List.mem_append.1 hmem with h | h
        · exact h3 h
        · have hE := mem_epochTrace_epoch h
          simp [evEpoch] at hE
          omega
    · refine ⟨fitTrace n c b e,
        FitEvent.readStart e ::
          ((List.range (numBatches n c b)).map
            (fun i => FitEvent.trainStep e i) ++ [FitEvent.reportLoss e]),
        ?_, ?_, ?_, ?_⟩
      · rw [fitTrace_succ]
        rfl
      · intro b2 hmem
        have hE := mem_fitTrace_lt hmem
        simp [evEpoch] at hE
      · intro hmem
        have hE := mem_fitTrace_lt hmem
        simp [evEpoch] at hE
      · intro hmem
        simp [List.mem_cons, List.mem_append, List.mem_map] at hmem

/-- Instantiation of c8_hooks: two epochs over a five-row source, second
epoch. -/
theorem c8_witness :
    (∃ A B, fitTrace 5 3 2 2 = A ++ FitEvent.epochBegin 1 :: B
      ∧ (∀ b2, FitEvent.trainStep 1 b2 ∉ A)
      ∧ FitEvent.epochBegin 1 ∉ A
      ∧ FitEvent.epochBegin 1 ∉ B)
    ∧ ∀ ev ∈ fitTrace 5 3 2 2, disabledHook ev = false :=
  c8_hooks 5 3 2 2 1 (by decide)

/-- C5: over a 100-row source with chunk size 20, batch size 10 and two
epochs, the streaming fit executes exactly 2 * floor(100 / 10) = 20
batch-update cycles; the loss is reported exactly once per epoch and only
after every batch-update cycle of that epoch; the source is re-read from
its start at the beginning of the second epoch, before any of its cycles;
and, in general, every batch ever processed has exactly batch_size rows: a
final partial batch is dropped, not padded or processed. -/
theorem c5_streaming_loop :
    ((fitTrace 100 20 10 2).countP isTrainStep = 20)
    ∧ ((fitTrace 100 20 10 2).count (FitEvent.reportLoss 0) = 1
      ∧ (fitTrace 100 20 10 2).count (FitEvent.reportLoss 1) = 1)
    ∧ (∀ e, e < 2 → ∀ i, i < (fitTrace 100 20 10 2).length →
        ∀ j, j < (fitTrace 100 20 10 2).length →
          (fitTrace 100 20 10 2).getD i FitEvent.trainEnd =
              FitEvent.reportLoss e →
            isTrainStepOf e
              ((fitTrace 100 20 10 2).getD j FitEvent.trainEnd) = true →
              j < i)
    ∧ (∀ j, j < (fitTrace 100 20 10 2).length →
        isTrainStepOf 1
            ((fitTrace 100 20 10 2).getD j FitEvent.trainEnd) = true →
          ∀ i, i < (fitTrace 100 20 10 2).length →
            (fitTrace 100 20 10 2).getD i FitEvent.trainEnd =
                FitEvent.readStart 1 →
              i < j)
    ∧ (∀ n c b : Nat, ∀ batch ∈ streamBatches n c b, batch.length = b) := by
  refine ⟨by decide, by decide, by decide, by decide, ?_⟩
  intro n c b batch hb
  have hf := List.mem_filter.1 hb
  simpa using hf.2

/-- Instantiation of the universally quantified part of c5_streaming_loop:
over a five-row source with chunk size 3 and batch size 2, the batch [0, 1]
is processed and indeed has exactly 2 rows, while the fifth row, a partial
final batch, is dropped. -/
theorem c5_witness :
    [0, 1] ∈ streamBatches 5 3 2 ∧ ([0, 1] : List Nat).length = 2
    ∧ streamBatches 5 3 2 = [[0, 1], [2, 3]] :=
  ⟨by decide, c5_streaming_loop.2.2.2.2 5 3 2 [0, 1] (by decide), by decide⟩
